import Mathlib

/-!
Verification development for the `openperouter-mcp` repository
(`main.go`): a line-delimited JSON-RPC (MCP) tool server whose core is a
process-supervision layer for long-running packet-capture commands.

The Go source is shallowly embedded as follows.

* Pure data (requests, responses, tool results) becomes Lean structures
  mirroring the Go structs field by field.
* The mutex-guarded map `MCPServer.activeCalls : map[string]*ActiveCall`
  becomes an association list with Go-map insert (replace) and delete
  semantics; every mutation in the source happens under `s.mu`, so the
  sequential association-list operations model the serialized mutations.
* External effects (the spawned `bash` process, its timestamped output
  lines, SIGTERM delivery outcomes) become explicit environment records
  passed to the handler functions; time is modelled in milliseconds.
* The `select` in `startTrafficCapture` (main.go lines 356-368) becomes a
  function of the occurrence times of its three events; theorems that
  depend on the choice use strict inequalities so that they hold under any
  resolution of simultaneous readiness.
* The inter-goroutine ordering facts needed by the registry claims are
  captured by a small event-trace model whose validity predicate encodes
  exactly the program orders and causal orders of the source (registration
  before the handler's wait, watcher deletion only after process exit,
  stop returning only after the graceful wait or the forced kill).
-/

namespace Mcp

/-! ## Basic protocol data (main.go lines 23-98) -/

/-- Model of a JSON-RPC id value (`id any` in Go). JSON integer ids
decode to Go `float64`; `fmt.Sprintf "%v"` prints integral floats without
a decimal point, which `toString : Int → String` matches, so ids are
modelled as integers or strings. `Option` models presence/absence. -/
inductive RpcId where
  | num (n : Int)
  | str (s : String)
deriving DecidableEq, Repr

/-- Model of Go `fmt.Sprintf("%v", id)` (main.go line 315): `nil` prints
as `<nil>`, strings print bare, integral numbers print as integers. -/
def formatRpcId : Option RpcId → String
  | none => "<nil>"
  | some (.num n) => toString n
  | some (.str s) => s

/-- Mirrors Go struct `RPCError` (main.go lines 37-41); the `Data` field
is never set by the source, so it is omitted. -/
structure RPCError where
  code : Int
  message : String
deriving DecidableEq, Repr

/-- Mirrors Go struct `ContentItem` (main.go lines 95-98). -/
structure ContentItem where
  type : String
  text : String
deriving DecidableEq, Repr

/-- Mirrors Go struct `CallToolResult` (main.go lines 90-93). -/
structure CallToolResult where
  content : List ContentItem
  isError : Bool
deriving DecidableEq, Repr

/-- Mirrors Go struct `CallToolParams` (main.go lines 85-88); the
argument map is restricted to the two keys the source reads
(`output_dir`, `capture_filter`), each `none` when absent or not a
string, mirroring the `args[...].(string)` type assertions. -/
structure CallToolParams where
  name : String
  outputDir : Option String
  captureFilter : Option String
deriving DecidableEq, Repr

/-- Payload of a successful JSON-RPC response. The dispatcher claims only
need to distinguish the three result shapes the source produces
(main.go: `handleInitialize`, `handleToolsList`, `handleToolCall`). -/
inductive RpcResult where
  | initRes
  | toolsListRes
  | toolRes (r : CallToolResult)
deriving DecidableEq, Repr

/-- Mirrors Go struct `JSONRPCResponse` (main.go lines 30-35): an echoed
id plus either a result or an error (the source never sets both). -/
structure JSONRPCResponse where
  id : Option RpcId
  result : Option RpcResult
  err : Option RPCError
deriving DecidableEq, Repr

/-- Mirrors `MCPServer.errorResponse` (main.go lines 447-456). -/
def errorResponse (id : Option RpcId) (code : Int) (message : String) : JSONRPCResponse :=
  { id := id, result := none, err := some { code := code, message := message } }

/-- Builds the success response wrapper used at main.go lines 153-157,
199-203 and 220-224. -/
def resultResponse (id : Option RpcId) (r : RpcResult) : JSONRPCResponse :=
  { id := id, result := some r, err := none }

/-! ## The active-call registry (main.go lines 100-117)

Go's `map[string]*ActiveCall` is modelled as an association list.
`insertA` is Go map assignment (replace), `eraseA` is Go `delete`,
`lookupA` is Go map indexing. -/

/-- Record of one `ActiveCall` (main.go lines 100-104). The Go struct
holds the raw id, the `context.CancelFunc` and the `*exec.Cmd`; the model
keeps the id together with the two nil-checks the stop handler performs
(`call.Cmd != nil`, `call.Cmd.Process != nil`). Both flags are `true` for
every call the source actually inserts (insertion happens only after
`cmd.Start()` succeeded, which sets `cmd.Process`). -/
structure CallRec where
  id : Option RpcId
  hasCmd : Bool
  hasProc : Bool
deriving DecidableEq, Repr

/-- Go `delete(m, k)`: removes the binding of `k`, if any. -/
def eraseA {α : Type} (r : List (String × α)) (k : String) : List (String × α) :=
  r.filter (fun p => !(decide (p.1 = k)))

/-- Go `m[k] = v`: binds `k` to `v`, replacing any previous binding. -/
def insertA {α : Type} (r : List (String × α)) (k : String) (v : α) : List (String × α) :=
  (k, v) :: eraseA r k

/-- Go `m[k]` lookup. -/
def lookupA {α : Type} (k : String) : List (String × α) → Option α
  | [] => none
  | p :: r => if p.1 = k then some p.2 else lookupA k r

/-- The registry type of `MCPServer.activeCalls`. -/
def Registry : Type := List (String × CallRec)

/-! ## Response texts (verbatim from main.go) -/

/-- Text prefix of the start acknowledgment (main.go line 373). -/
def wrapPre : String :=
  "Traffic capture started successfully and is running in the background (Request ID: "

/-- Middle section of the start acknowledgment (main.go line 373). -/
def wrapMid : String := ").\n\nInitial output:\n"

/-- Trailing section of the start acknowledgment (main.go line 373). -/
def wrapPost : String :=
  "\n\nThe capture will continue running. Use the stop_traffic_capture tool to stop all captures and retrieve the files."

/-- The full start acknowledgment text (main.go line 373), as a function
of the formatted request id and the initial-output text spliced in. -/
def startWrapper (reqID initialOutput : String) : String :=
  wrapPre ++ reqID ++ wrapMid ++ initialOutput ++ wrapPost

/-- Sentinel assigned when the handler's 5-second timer fires first
(main.go line 359). -/
def timeoutSentinel : String :=
  "Capture process started (waiting for initial output timed out after 5s)"

/-- Sentinel the reader goroutine sends when it captured no line before
its loop ended (main.go line 348). -/
def noOutputSentinel : String := "Capture started (no initial output yet)"

/-- Response text of the cancellation branch of the select
(main.go line 364). -/
def cancelledText : String := "Traffic capture was cancelled before starting."

/-- Response text of a stop with an empty snapshot (main.go line 397). -/
def noActiveText : String := "No active traffic captures found."

/-- Response text of a completed stop (main.go line 441). -/
def stopSuccessText (n : Nat) : String :=
  "Successfully stopped " ++ toString n ++ " traffic capture(s).\n\nThe cleanup process has:\n- Terminated all tshark processes in containers\n- Copied pcap files from containers to the host\n\nCheck the output directory for the capture files."

/-! ## The background reader and the three-way select
(main.go lines 324-368) -/

/-- The fixed line cap of the reader goroutine (main.go line 338). -/
def maxLines : Nat := 20

/-- The handler's observation deadline in milliseconds
(`5 * time.Second`, main.go line 358). -/
def deadlineMs : Nat := 5000

/-- Environment of one async start: what the external world does.
`spawnErr` covers the three fallible handle-creation steps in source
order (stdout pipe, stderr pipe, `cmd.Start()`); `lineEvents` is the
timestamped sequence of text lines the spawned process writes to its
combined stdout/stderr stream (what `bufio.Scanner` tokenizes);
`eofTime` is the instant the combined stream reaches end-of-file (the
process exited and the pipes drained), `none` when that never happens
within any relevant horizon; `cancelTime` is the instant the per-call
context is cancelled, `none` when it is not. -/
inductive SpawnOutcome where
  | stdoutPipeErr (e : String)
  | stderrPipeErr (e : String)
  | startErr (e : String)
  | started
deriving DecidableEq, Repr

/-- Environment record for `startTrafficCapture`. -/
structure StartEnv where
  spawn : SpawnOutcome
  lineEvents : List (Nat × String)
  eofTime : Option Nat
  cancelTime : Option Nat
deriving DecidableEq, Repr

/-- Instant at which the reader goroutine performs its single channel
send (main.go lines 340-349). The loop condition `scanner.Scan() &&
lineCount < maxLines` re-evaluates after the 20th line is appended:
`Scan()` is called a 21st time and blocks until a 21st line arrives or
the stream hits end-of-file; only once that call returns does the loop
exit and the send happen. So delivery occurs at the 21st line's arrival
when the command writes more than 20 lines (index `maxLines` is the 21st
event), and otherwise — 20 or fewer lines — only at end-of-file. With no
end-of-file and at most 20 lines the scanner blocks and nothing is ever
sent. -/
def readerDeliveryTime (env : StartEnv) : Option Nat :=
  match env.lineEvents[maxLines]? with
  | some e => some e.1
  | none => env.eofTime

/-- The message the reader goroutine sends (main.go lines 345-349):
the first captured line when at least one line was scanned, otherwise
the no-output sentinel. -/
def readerMessage (env : StartEnv) : String :=
  match env.lineEvents with
  | [] => noOutputSentinel
  | e :: _ => e.2

/-- Outcome of the handler's three-way select (main.go lines 356-368). -/
inductive StartOutcome where
  | delivered (msg : String)
  | timedOut
  | cancelled
deriving DecidableEq, Repr

/-- The select of main.go lines 356-368: whichever of {channel receive,
5-second timer, context cancellation} occurs first wins. Simultaneous
readiness is resolved in Go by a pseudo-random choice; the model breaks
ties in favour of delivery, then cancellation (theorems that depend on
the winner use strict inequalities, making them tie-break independent). -/
def selectOutcome (dt ct : Option Nat) (msg : String) : StartOutcome :=
  match dt, ct with
  | some td, some tc =>
      if decide (td ≤ deadlineMs) && decide (td ≤ tc) then .delivered msg
      else if tc ≤ deadlineMs then .cancelled else .timedOut
  | some td, none => if td ≤ deadlineMs then .delivered msg else .timedOut
  | none, some tc => if tc ≤ deadlineMs then .cancelled else .timedOut
  | none, none => .timedOut

/-- The tool result each select branch returns (main.go lines 357-376).
The delivered and timed-out branches flow into the common wrapper text at
line 373 with their respective `initialOutput`; the cancellation branch
returns its own text directly at lines 361-367. All three set
`IsError: false`. -/
def startResponseOf (o : StartOutcome) (reqID : String) : CallToolResult :=
  match o with
  | .delivered msg =>
      { content := [{ type := "text", text := startWrapper reqID msg }], isError := false }
  | .timedOut =>
      { content := [{ type := "text", text := startWrapper reqID timeoutSentinel }], isError := false }
  | .cancelled =>
      { content := [{ type := "text", text := cancelledText }], isError := false }

/-- Result record of one run of `startTrafficCapture`: the tool result,
the registry after the handler returned (before any background watcher
deletion), and whether the call was registered / the background reader
goroutine was launched. -/
structure StartResult where
  result : CallToolResult
  registry : List (String × CallRec)
  registered : Bool
  bgLaunched : Bool

/-- Model of `MCPServer.startTrafficCapture` (main.go lines 260-377).
Argument resolution (lines 260-271) only shapes the command line and
environment of the opaque external command and is irrelevant to every
claim, so it is not represented. The three fallible handle-creation
steps return an error-flagged result before the registration at lines
316-322; on success the call is registered, the reader goroutine is
launched, and the handler blocks on the three-way select. -/
def startTrafficCapture (id : Option RpcId) (reg : List (String × CallRec))
    (env : StartEnv) : StartResult :=
  match env.spawn with
  | .stdoutPipeErr e =>
      { result := { content := [{ type := "text", text := "Error creating stdout pipe: " ++ e }],
                    isError := true },
        registry := reg, registered := false, bgLaunched := false }
  | .stderrPipeErr e =>
      { result := { content := [{ type := "text", text := "Error creating stderr pipe: " ++ e }],
                    isError := true },
        registry := reg, registered := false, bgLaunched := false }
  | .startErr e =>
      { result := { content := [{ type := "text", text := "Error starting capture-traffic.sh: " ++ e }],
                    isError := true },
        registry := reg, registered := false, bgLaunched := false }
  | .started =>
      let requestID := formatRpcId id
      let reg2 := insertA reg requestID { id := id, hasCmd := true, hasProc := true }
      let outcome := selectOutcome (readerDeliveryTime env) env.cancelTime (readerMessage env)
      { result := startResponseOf outcome requestID,
        registry := reg2, registered := true, bgLaunched := true }

/-! ## The stop handler (main.go lines 379-445) -/

/-- Environment of one stop run: whether SIGTERM delivery to the process
of the call registered under a given key succeeds (main.go line 408),
and whether all snapshotted processes exit within the 15-second wait
(main.go lines 426-436). -/
structure StopEnv where
  termOk : String → Bool
  gracefulWithin15s : Bool

/-- The snapshot the stop handler copies out under the lock
(main.go lines 380-391): every registry entry whose `Cmd` and
`Cmd.Process` are non-nil. -/
def stopSnapshotOf (reg : List (String × CallRec)) : List (String × CallRec) :=
  reg.filter (fun p => p.2.hasCmd && p.2.hasProc)

/-- Result record of one run of `stopTrafficCapture`: the tool result,
the keys whose process was sent SIGTERM (in snapshot order), the number
of deliveries that succeeded (the `stoppedCount` of main.go lines
403-414), and whether the 15-second timeout forced `Process.Kill()`. -/
structure StopResult where
  result : CallToolResult
  termAttempts : List String
  stoppedCount : Nat
  forcedKill : Bool

/-- Model of `MCPServer.stopTrafficCapture` (main.go lines 379-445).
An empty snapshot returns immediately (lines 393-401). Otherwise every
snapshotted handle is sent SIGTERM in a loop that merely logs a delivery
failure and continues (lines 404-414); the count of successful
deliveries is reported in the final text (line 441), which carries
`IsError: false` on every path. The registry itself is not mutated by
the stop handler. -/
def stopTrafficCapture (reg : List (String × CallRec)) (env : StopEnv) : StopResult :=
  let snap := stopSnapshotOf reg
  if snap.isEmpty then
    { result := { content := [{ type := "text", text := noActiveText }], isError := false },
      termAttempts := [], stoppedCount := 0, forcedKill := false }
  else
    let count := (snap.filter (fun p => env.termOk p.1)).length
    { result := { content := [{ type := "text", text := stopSuccessText count }], isError := false },
      termAttempts := snap.map (fun p => p.1),
      stoppedCount := count,
      forcedKill := !env.gracefulWithin15s }

/-! ## The synchronous tool and the dispatcher
(main.go lines 119-258, 458-496) -/

/-- Outcome of `executeScript` (main.go lines 227-238) for the
synchronous `extract_leaf_configs` tool: combined output plus an
optional error text. -/
inductive ExecOutcome where
  | ok (output : String)
  | fail (errMsg : String) (output : String)
deriving DecidableEq, Repr

/-- Model of `MCPServer.extractLeafConfigs` (main.go lines 240-258). -/
def extractLeafConfigs (o : ExecOutcome) : CallToolResult :=
  match o with
  | .ok output => { content := [{ type := "text", text := output }], isError := false }
  | .fail errMsg output =>
      { content := [{ type := "text",
                      text := "Error executing extract-leaf-configs.sh: " ++ errMsg ++ "\nOutput: " ++ output }],
        isError := true }

/-- The mutable server state plus the environment oracles consumed by the
next tool invocation. `registry` is `MCPServer.activeCalls`; the three
environment fields supply the external-world behaviour of the respective
handler, exactly as described on their definitions. -/
structure World where
  registry : List (String × CallRec)
  startEnv : StartEnv
  stopEnv : StopEnv
  extractOutcome : ExecOutcome

/-- Result of decoding `req.Params` into the per-method parameter struct
(`json.Unmarshal` at main.go lines 123 and 131): each view is `none`
when unmarshalling into that target type fails. -/
structure ParamsBlob where
  asInit : Option Unit
  asCall : Option CallToolParams

/-- Mirrors Go struct `JSONRPCRequest` (main.go lines 23-28), with the
raw params blob abstracted to its per-target decode results. -/
structure JSONRPCRequest where
  id : Option RpcId
  method : String
  params : ParamsBlob

/-- Model of `MCPServer.handleToolCall` (main.go lines 206-225): the
named tool's handler runs and its `CallToolResult` is wrapped in a
success response tagged with the caller's id; an unrecognized tool name
yields the `-32602 Unknown tool` protocol error. -/
def handleToolCall (w : World) (id : Option RpcId) (p : CallToolParams) :
    JSONRPCResponse × World :=
  match p.name with
  | "extract_leaf_configs" =>
      (resultResponse id (.toolRes (extractLeafConfigs w.extractOutcome)), w)
  | "start_traffic_capture" =>
      let r := startTrafficCapture id w.registry w.startEnv
      (resultResponse id (.toolRes r.result), { w with registry := r.registry })
  | "stop_traffic_capture" =>
      let r := stopTrafficCapture w.registry w.stopEnv
      (resultResponse id (.toolRes r.result), w)
  | _ => (errorResponse id (-32602) ("Unknown tool: " ++ p.name), w)

/-- Model of `MCPServer.handleRequest` (main.go lines 119-138). -/
def handleRequest (w : World) (req : JSONRPCRequest) : JSONRPCResponse × World :=
  match req.method with
  | "initialize" =>
      match req.params.asInit with
      | none => (errorResponse req.id (-32602) "Invalid params", w)
      | some _ => (resultResponse req.id .initRes, w)
  | "tools/list" => (resultResponse req.id .toolsListRes, w)
  | "tools/call" =>
      match req.params.asCall with
      | none => (errorResponse req.id (-32602) "Invalid params", w)
      | some p => handleToolCall w req.id p
  | _ => (errorResponse req.id (-32601) "Method not found", w)

/-- One consumed input line, abstracting `json.Unmarshal` of the envelope
(main.go lines 472-477): empty, unparsable, or a decoded request. -/
inductive InputLine where
  | blank
  | malformed
  | parsed (req : JSONRPCRequest)

/-- One iteration of the read loop in `main` (main.go lines 466-481): a
blank line is skipped without a response; an unparsable line yields the
`-32700 Parse error` response with no id; otherwise the decoded request
is handled and its single response written. Exactly one response is
written per non-blank consumed line (`writeResponse` is called once on
each such path). -/
def processLine (w : World) : InputLine → Option JSONRPCResponse × World
  | .blank => (none, w)
  | .malformed => (some (errorResponse none (-32700) "Parse error"), w)
  | .parsed req =>
      let r := handleRequest w req
      (some r.1, r.2)

/-! ## The per-call cancellation token and process termination
(main.go lines 273-275, 326-333, 404-435) -/

/-- Phase of the supervised OS process. -/
inductive ProcPhase where
  | running
  | exited
deriving DecidableEq, Repr

/-- State of one supervised OS process: its phase, whether it was killed
(SIGKILL) rather than allowed to exit, and whether SIGTERM was ever
delivered to it. -/
structure Proc where
  phase : ProcPhase
  killed : Bool
  sigtermed : Bool
deriving DecidableEq, Repr

/-- Effect of firing the per-call cancellation token. The command is
created with `exec.CommandContext(ctx, ...)` (main.go line 275), whose
contract is that cancelling the context kills the process
(`os.Process.Kill`) if the command has started and not yet completed;
on an already-completed command the cancellation is a no-op. Firing the
token also makes `ctx.Done()` ready, releasing the handler's select
(modelled by `selectOutcome` receiving a `cancelTime`). -/
def fireCancel (p : Proc) : Proc :=
  match p.phase with
  | .running => { p with phase := .exited, killed := true }
  | .exited => p

/-- Effect of `cmd.Process.Signal(syscall.SIGTERM)` (main.go line 408):
delivers the graceful signal; the process is expected to clean up and
exit on its own schedule, so its phase is unchanged here. -/
def signalTerm (p : Proc) : Proc :=
  match p.phase with
  | .running => { p with sigtermed := true }
  | .exited => p

/-- Effect of `cmd.Process.Kill()` on the forced path
(main.go lines 429-435). -/
def forceKill (p : Proc) : Proc :=
  match p.phase with
  | .running => { p with phase := .exited, killed := true }
  | .exited => p

/-! ## Event-trace model of the registry's concurrent life
(main.go lines 315-333, 379-436)

A trace is a global interleaving of the atomic steps that matter to the
registry claims. Calls are numbered by a `Nat` instance tag `c` (two
distinct start invocations are distinct instances even when they share a
request-id key `k`). `ValidTraceB` encodes exactly the orders the source
imposes: the handler registers (lines 316-322) before it begins the
select wait (line 356); a call's watcher deletes its key (line 330) only
after its own registration (the goroutine is launched at line 326, after
registration) and after its process exited (`cmd.Wait()` at line 328
returned); the stop handler snapshots under the lock (lines 380-391)
before anything else it does, delivers SIGTERM only to snapshotted calls
(lines 404-414), and returns only after either every snapshotted process
exited (the `done` channel path, lines 418-428) or the 15-second timer
forced a kill (lines 429-436). No order is imposed between the watcher
deletions and the stop handler's return: they belong to different
goroutines with no synchronization between them. -/

/-- Atomic events of the trace model. `stopSnapshotEv` records the copied
snapshot (keys with their call instances) so later constraints can refer
to it. A single stop operation is modelled per trace. -/
inductive Ev where
  | register (k : String) (c : Nat)
  | beginWait (k : String) (c : Nat)
  | startReturn (k : String) (c : Nat)
  | procExit (c : Nat)
  | wDelete (k : String) (c : Nat)
  | stopSnapshotEv (snap : List (String × Nat))
  | sigterm (c : Nat)
  | stopForcedKill
  | stopReturn
deriving DecidableEq, Repr

/-- Registry effect of one event: only registration (Go map assignment)
and the watcher's `delete` (by key, regardless of which call instance now
owns the entry) touch the registry. -/
def regStep (r : List (String × Nat)) : Ev → List (String × Nat)
  | .register k c => insertA r k c
  | .wDelete k _ => eraseA r k
  | _ => r

/-- The registry contents after a trace prefix, starting empty. -/
def regAfter (tr : List Ev) : List (String × Nat) :=
  tr.foldl regStep []

/-- Boolean membership of an event in a list. -/
def hasEv (l : List Ev) (e : Ev) : Bool :=
  l.any (fun x => decide (x = e))

/-- Whether an event is the registration of call instance `c`. -/
def isRegOf (c : Nat) : Ev → Bool
  | .register _ c2 => decide (c2 = c)
  | _ => false

/-- Whether an event is the stop handler's snapshot step. -/
def isSnapEv : Ev → Bool
  | .stopSnapshotEv _ => true
  | _ => false

/-- Enabledness of event `e` after the trace prefix `pre`: the causal and
program-order constraints described on the trace model. -/
def checkEv (pre : List Ev) : Ev → Bool
  | .register _ c => pre.all (fun e => !(isRegOf c e))
  | .beginWait k c => hasEv pre (.register k c)
  | .startReturn k c => hasEv pre (.beginWait k c)
  | .procExit c => pre.any (isRegOf c)
  | .wDelete k c => hasEv pre (.register k c) && hasEv pre (.procExit c)
  | .stopSnapshotEv snap => decide (snap = regAfter pre) && pre.all (fun e => !(isSnapEv e))
  | .sigterm c =>
      pre.any (fun e => match e with
        | .stopSnapshotEv snap => snap.any (fun p => decide (p.2 = c))
        | _ => false)
  | .stopForcedKill => pre.any isSnapEv
  | .stopReturn =>
      pre.any (fun e => match e with
        | .stopSnapshotEv snap => snap.all (fun p => hasEv pre (.procExit p.2))
        | _ => false) || hasEv pre .stopForcedKill

/-- Validity of a trace suffix given the prefix already consumed. -/
def validFrom (pre : List Ev) : List Ev → Bool
  | [] => true
  | e :: rest => checkEv pre e && validFrom (pre ++ [e]) rest

/-- No event occurs twice in the trace (each modelled atomic step of each
call instance, and each step of the single stop, happens at most once). -/
def distinctEvents : List Ev → Bool
  | [] => true
  | e :: rest => !(hasEv rest e) && distinctEvents rest

/-- Validity of a whole trace of the supervision layer. -/
def ValidTraceB (tr : List Ev) : Bool :=
  validFrom [] tr && distinctEvents tr

/-- Events that write key `k` in the registry. -/
def kWrite (k : String) : Ev → Bool
  | .register k2 _ => decide (k2 = k)
  | .wDelete k2 _ => decide (k2 = k)
  | _ => false

/-- The last registry write on key `k` in a trace, if any. -/
def lastWrite (k : String) (tr : List Ev) : Option Ev :=
  tr.foldl (fun a e => if kWrite k e then some e else a) none

/-- Whether the last registry write on `k`, if any, is not a (re-)
registration — that is, the key ends up deleted or untouched. -/
def lastWriteNotReg (k : String) (tr : List Ev) : Bool :=
  match lastWrite k tr with
  | some (.register _ _) => false
  | _ => true

/-- Whether every key ever registered in the trace has been deleted by a
watcher afterwards (and not re-registered since). -/
def allRegisteredDeleted (tr : List Ev) : Bool :=
  tr.all (fun e => match e with
    | .register k _ => lastWriteNotReg k tr
    | _ => true)

/-! ## Substring containment (used to state "the response contains that
exact line") -/

/-- Whether the first list is an initial segment of the second. -/
def leadsWith : List Char → List Char → Bool
  | [], _ => true
  | _ :: _, [] => false
  | a :: as, b :: bs => a == b && leadsWith as bs

/-- Whether `needle` occurs contiguously inside the second list. -/
def hasSub (needle : List Char) : List Char → Bool
  | [] => leadsWith needle []
  | c :: t => leadsWith needle (c :: t) || hasSub needle t

/-- Whether `needle` occurs as a contiguous substring of `hay`. -/
def strContains (hay needle : String) : Bool :=
  hasSub needle.data hay.data

/-! ## Named trace-side conditions used by claim statements -/

/-- No watcher deletion of key `k` occurs in the list (the call under `k`
is still active: its completion watcher has not removed it). -/
def noDeleteOf (k : String) (l : List Ev) : Bool :=
  l.all (fun e => match e with
    | .wDelete k2 _ => !(decide (k2 = k))
    | _ => true)

/-- Every registration of key `k` in the list registers call instance `c`
(the invocation identifier is not shared with another call). -/
def regOnly (k : String) (c : Nat) (l : List Ev) : Bool :=
  l.all (fun e => match e with
    | .register k2 c2 => !(decide (k2 = k)) || decide (c2 = c)
    | _ => true)

/-! ## Concrete example inputs used by counterexamples and witnesses -/

/-- A start whose command writes the single line `ready` at time 0 and
then idles with its output stream open (no further line, no end-of-file
within any relevant horizon, no cancellation). -/
def exEnvC1 : StartEnv :=
  { spawn := .started, lineEvents := [(0, "ready")], eofTime := none, cancelTime := none }

/-- A start whose command writes `ready` at time 0 and closes its output
at time 10 ms (for example by exiting), with no cancellation. -/
def exEnvDeliver : StartEnv :=
  { spawn := .started, lineEvents := [(0, "ready")], eofTime := some 10, cancelTime := none }

/-- A start whose command writes nothing and keeps its stream open. -/
def exEnvSilent : StartEnv :=
  { spawn := .started, lineEvents := [], eofTime := none, cancelTime := none }

/-- A start whose command's first and only line is, verbatim, the
handler's own timeout sentinel text, followed by end-of-file at 1 ms. -/
def exEnvSentinelLine : StartEnv :=
  { spawn := .started, lineEvents := [(0, timeoutSentinel)], eofTime := some 1, cancelTime := none }

/-- A start whose `cmd.Start()` fails. -/
def exEnvStartErr : StartEnv :=
  { spawn := .startErr "fork/exec: resource temporarily unavailable",
    lineEvents := [], eofTime := none, cancelTime := none }

/-- A registry holding two active calls, keyed `1` and `2`. -/
def exStopReg : List (String × CallRec) :=
  [("1", { id := some (.num 1), hasCmd := true, hasProc := true }),
   ("2", { id := some (.num 2), hasCmd := true, hasProc := true })]

/-- A stop environment in which SIGTERM delivery succeeds only for the
call keyed `1` and the graceful wait completes in time. -/
def exStopEnv : StopEnv :=
  { termOk := fun k => k == "1", gracefulWithin15s := true }

/-- A stop environment in which every delivery succeeds. -/
def exStopEnvAllOk : StopEnv :=
  { termOk := fun _ => true, gracefulWithin15s := true }

/-- A running process that has received no signal. -/
def pRun : Proc := { phase := .running, killed := false, sigtermed := false }

/-- A trace in which call 0 (key `1`) is started and registered, a stop
snapshots it, signals it, its process exits, and the stop returns on the
graceful path — all before the call's completion watcher runs. -/
def exStopTrace : List Ev :=
  [.register "1" 0, .beginWait "1" 0, .startReturn "1" 0,
   .stopSnapshotEv [("1", 0)], .sigterm 0, .procExit 0, .stopReturn]

/-- The same execution continued until the watcher's registry deletion
has also run. -/
def exStopTraceDone : List Ev := exStopTrace ++ [.wDelete "1" 0]

/-- A trace in which two distinct call instances 0 and 1 are started
under the same request-id key `1`, the first process exits, and the
first call's watcher deletes the shared key — removing the second,
still-running call from the registry. -/
def exDupTrace : List Ev :=
  [.register "1" 0, .beginWait "1" 0, .startReturn "1" 0,
   .register "1" 1, .beginWait "1" 1, .startReturn "1" 1,
   .procExit 0, .wDelete "1" 0]

/-- A trace in which call 5 (key `9`) registers, begins its wait, and a
stop snapshot is then taken. -/
def exC5Trace : List Ev :=
  [.register "9" 5, .beginWait "9" 5, .stopSnapshotEv [("9", 5)]]

/-- A fixed world for dispatcher witnesses. -/
def exWorld : World :=
  { registry := [], startEnv := exEnvSilent, stopEnv := exStopEnvAllOk,
    extractOutcome := .ok "done" }

/-- A request naming a method the dispatch table does not know. -/
def exReqUnknown : JSONRPCRequest :=
  { id := some (.num 7), method := "tools/unknown",
    params := { asInit := none, asCall := none } }

/-- A well-formed `tools/list` request. -/
def exReqList : JSONRPCRequest :=
  { id := some (.num 3), method := "tools/list",
    params := { asInit := none, asCall := none } }

/-- The first seventeen characters of the start acknowledgment, at which
it already differs from the cancellation text. -/
def wrapHead : List Char := "Traffic capture s".data

set_option maxRecDepth 16384

/-! ## Helper lemmas: strings and substrings -/

theorem dataAppend (s t : String) : (s ++ t).data = s.data ++ t.data := rfl

theorem stringDataInj {s t : String} (h : s.data = t.data) : s = t := by
  cases s with
  | mk a =>
    cases t with
    | mk b => exact congrArg String.mk (h : a = b)

theorem leadsWith_append (n : List Char) :
    ∀ (a b : List Char), leadsWith n a = true → leadsWith n (a ++ b) = true := by
  induction n with
  | nil => intro a b _; rfl
  | cons c cs ih =>
    intro a b h
    cases a with
    | nil => simp [leadsWith] at h
    | cons x xs =>
      simp only [List.cons_append, leadsWith, Bool.and_eq_true] at h ⊢
      exact ⟨h.1, ih xs b h.2⟩

theorem leadsWith_self (n : List Char) : ∀ (b : List Char), leadsWith n (n ++ b) = true := by
  induction n with
  | nil => intro b; rfl
  | cons c cs ih => intro b; simpa [leadsWith] using ih b

theorem hasSub_of_leadsWith (n l : List Char) (h : leadsWith n l = true) : hasSub n l = true := by
  cases l with
  | nil => simpa [hasSub] using h
  | cons c t => simp [hasSub, h]

theorem hasSub_append_left (n : List Char) :
    ∀ (a l : List Char), hasSub n l = true → hasSub n (a ++ l) = true := by
  intro a
  induction a with
  | nil => intro l h; simpa using h
  | cons c a ih =>
    intro l h
    simp only [List.cons_append, hasSub, Bool.or_eq_true]
    exact Or.inr (ih l h)

theorem strContains_append_middle (a m b : String) : strContains (a ++ m ++ b) m = true := by
  unfold strContains
  rw [dataAppend, dataAppend, List.append_assoc]
  exact hasSub_append_left m.data a.data _
    (hasSub_of_leadsWith m.data _ (leadsWith_self m.data b.data))

theorem startWrapper_data (rid m : String) :
    (startWrapper rid m).data =
      wrapPre.data ++ (rid.data ++ (wrapMid.data ++ (m.data ++ wrapPost.data))) := by
  simp [startWrapper, dataAppend, List.append_assoc]

theorem startWrapper_ne_cancelledText (rid m : String) : startWrapper rid m ≠ cancelledText := by
  intro h
  have h1 : leadsWith wrapHead (startWrapper rid m).data = true := by
    rw [startWrapper_data]
    exact leadsWith_append wrapHead wrapPre.data _ (by decide)
  rw [h] at h1
  exact absurd h1 (by decide)

theorem startWrapper_inj (rid m1 m2 : String)
    (h : startWrapper rid m1 = startWrapper rid m2) : m1 = m2 := by
  have hd := congrArg String.data h
  rw [startWrapper_data, startWrapper_data] at hd
  have h1 := List.append_cancel_left hd
  have h2 := List.append_cancel_left h1
  have h3 := List.append_cancel_left h2
  exact stringDataInj (List.append_cancel_right h3)

/-! ## Helper lemmas: the association-list registry -/

theorem eraseA_cons {α : Type} (p : String × α) (r : List (String × α)) (k : String) :
    eraseA (p :: r) k = if p.1 = k then eraseA r k else p :: eraseA r k := by
  by_cases h : p.1 = k <;> simp [eraseA, h]

theorem lookupA_insert_self {α : Type} (r : List (String × α)) (k : String) (v : α) :
    lookupA k (insertA r k v) = some v := by
  simp [insertA, lookupA]

theorem lookupA_erase_self {α : Type} (r : List (String × α)) (k : String) :
    lookupA k (eraseA r k) = none := by
  induction r with
  | nil => rfl
  | cons p r ih =>
    rw [eraseA_cons]
    by_cases h : p.1 = k
    · simpa [h] using ih
    · simpa [lookupA, h] using ih

theorem lookupA_erase_ne {α : Type} (r : List (String × α)) (k k2 : String) (h : k ≠ k2) :
    lookupA k (eraseA r k2) = lookupA k r := by
  induction r with
  | nil => rfl
  | cons p r ih =>
    by_cases hp : p.1 = k2
    · rw [eraseA_cons, if_pos hp]
      have hpk : ¬p.1 = k := fun hh => h (hh.symm.trans hp)
      simp only [lookupA, hpk, if_false]
      exact ih
    · rw [eraseA_cons, if_neg hp]
      by_cases hk : p.1 = k
      · simp [lookupA, hk]
      · simp only [lookupA, hk, if_false]
        exact ih

theorem lookupA_insert_ne {α : Type} (r : List (String × α)) (k k2 : String) (v : α)
    (h : k ≠ k2) : lookupA k (insertA r k2 v) = lookupA k r := by
  have h2 : k2 ≠ k := fun hh => h hh.symm
  simp only [insertA, lookupA, h2, if_false]
  exact lookupA_erase_ne r k k2 h

theorem mem_of_lookupA {α : Type} (r : List (String × α)) (k : String) (v : α)
    (h : lookupA k r = some v) : (k, v) ∈ r := by
  induction r with
  | nil => simp [lookupA] at h
  | cons p r ih =>
    by_cases hp : p.1 = k
    · simp only [lookupA, hp, if_true] at h
      have : p = (k, v) := by
        cases p
        simp only [Option.some.injEq] at h
        simp_all
      simp [this]
    · simp only [lookupA, hp, if_false] at h
      exact List.mem_cons_of_mem p (ih h)

theorem eraseA_idem {α : Type} (r : List (String × α)) (k : String) :
    eraseA (eraseA r k) k = eraseA r k := by
  induction r with
  | nil => rfl
  | cons p r ih =>
    rw [eraseA_cons]
    by_cases h : p.1 = k
    · rw [if_pos h]
      exact ih
    · rw [if_neg h, eraseA_cons, if_neg h, ih]

/-! ## Helper lemmas: the event-trace model -/

theorem hasEv_iff (l : List Ev) (e : Ev) : hasEv l e = true ↔ e ∈ l := by
  simp [hasEv, List.any_eq_true]

theorem validFrom_split :
    ∀ (xs acc : List Ev) (e : Ev) (ys : List Ev),
      validFrom acc (xs ++ e :: ys) = true → checkEv (acc ++ xs) e = true := by
  intro xs
  induction xs with
  | nil =>
    intro acc e ys h
    simp only [List.nil_append, validFrom, Bool.and_eq_true] at h
    simpa using h.1
  | cons x xs ih =>
    intro acc e ys h
    simp only [List.cons_append, validFrom, Bool.and_eq_true] at h
    have h2 := ih (acc ++ [x]) e ys h.2
    rwa [List.append_assoc, List.singleton_append] at h2

theorem regAfter_concat (tr : List Ev) (e : Ev) :
    regAfter (tr ++ [e]) = regStep (regAfter tr) e := by
  simp [regAfter, List.foldl_append]

theorem lastWrite_concat (k : String) (tr : List Ev) (e : Ev) :
    lastWrite k (tr ++ [e]) = if kWrite k e then some e else lastWrite k tr := by
  simp [lastWrite, List.foldl_append]

theorem lookupA_regAfter (k : String) (tr : List Ev) :
    lookupA k (regAfter tr) =
      (match lastWrite k tr with
       | some (Ev.register _ c) => some c
       | _ => none) := by
  induction tr using List.reverseRecOn with
  | nil => rfl
  | append_singleton tr e ih =>
    rw [regAfter_concat, lastWrite_concat]
    cases e with
    | register k2 c =>
      by_cases hk : k2 = k
      · subst hk
        simp [regStep, kWrite, lookupA_insert_self]
      · simp [regStep, kWrite, hk, lookupA_insert_ne _ _ _ _ (fun hh => hk hh.symm), ih]
    | wDelete k2 c =>
      by_cases hk : k2 = k
      · subst hk
        simp [regStep, kWrite, lookupA_erase_self]
      · simp [regStep, kWrite, hk, lookupA_erase_ne _ _ _ (fun hh => hk hh.symm), ih]
    | beginWait k2 c => simpa [regStep, kWrite] using ih
    | startReturn k2 c => simpa [regStep, kWrite] using ih
    | procExit c => simpa [regStep, kWrite] using ih
    | stopSnapshotEv s => simpa [regStep, kWrite] using ih
    | sigterm c => simpa [regStep, kWrite] using ih
    | stopForcedKill => simpa [regStep, kWrite] using ih
    | stopReturn => simpa [regStep, kWrite] using ih

theorem lastWrite_mem_aux (k : String) :
    ∀ (tr : List Ev) (a : Option Ev) (e : Ev),
      tr.foldl (fun acc ev => if kWrite k ev then some ev else acc) a = some e →
      (kWrite k e = true ∧ e ∈ tr) ∨ a = some e := by
  intro tr
  induction tr with
  | nil => intro a e h; exact Or.inr h
  | cons x xs ih =>
    intro a e h
    simp only [List.foldl_cons] at h
    rcases ih _ e h with h1 | h1
    · exact Or.inl ⟨h1.1, List.mem_cons_of_mem x h1.2⟩
    · by_cases hx : kWrite k x = true
      · rw [if_pos hx] at h1
        have hxe : x = e := Option.some.inj h1
        subst hxe
        exact Or.inl ⟨hx, List.mem_cons_self x xs⟩
      · rw [if_neg hx] at h1
        exact Or.inr h1

theorem lastWrite_mem (k : String) (tr : List Ev) (e : Ev)
    (h : lastWrite k tr = some e) : kWrite k e = true ∧ e ∈ tr := by
  rcases lastWrite_mem_aux k tr none e h with h1 | h1
  · exact h1
  · exact absurd h1 (by simp)

theorem lastWrite_of_regOnly (k : String) (c : Nat) :
    ∀ (pre : List Ev), Ev.register k c ∈ pre →
      noDeleteOf k pre = true → regOnly k c pre = true →
      lastWrite k pre = some (Ev.register k c) := by
  intro pre
  induction pre using List.reverseRecOn with
  | nil => intro h _ _; simp at h
  | append_singleton pre e ih =>
    intro hmem hnd hro
    rw [lastWrite_concat]
    unfold noDeleteOf at hnd
    unfold regOnly at hro
    rw [List.all_append, Bool.and_eq_true] at hnd hro
    by_cases hw : kWrite k e = true
    · rw [if_pos hw]
      cases e with
      | register k2 c2 =>
        have hk : k2 = k := by simpa [kWrite] using hw
        subst hk
        have hc : c2 = c := by simpa using hro.2
        rw [hc]
      | wDelete k2 c2 =>
        have hx := hnd.2
        simp only [kWrite, decide_eq_true_eq] at hw
        simp [hw] at hx
      | beginWait k2 c2 => simp [kWrite] at hw
      | startReturn k2 c2 => simp [kWrite] at hw
      | procExit c2 => simp [kWrite] at hw
      | stopSnapshotEv s => simp [kWrite] at hw
      | sigterm c2 => simp [kWrite] at hw
      | stopForcedKill => simp [kWrite] at hw
      | stopReturn => simp [kWrite] at hw
    · rw [if_neg hw]
      have hmem2 : Ev.register k c ∈ pre := by
        rcases List.mem_append.mp hmem with h1 | h1
        · exact h1
        · rw [List.mem_singleton] at h1
          subst h1
          exact absurd (by simp [kWrite] : kWrite k (Ev.register k c) = true) hw
      exact ih hmem2 hnd.1 hro.1

/-! ## Claim C2 -/

/-- C2: a stop request issued when the snapshot copied from the registry
is empty returns a success result (error flag unset) reporting zero
signaled calls: no handle is sent a signal, the signaled count is zero,
and the response text is the fixed no-active-captures message
(main.go lines 393-401). -/
theorem stop_empty_success (reg : List (String × CallRec)) (env : StopEnv)
    (h : stopSnapshotOf reg = []) :
    (stopTrafficCapture reg env).result.isError = false ∧
    (stopTrafficCapture reg env).termAttempts = [] ∧
    (stopTrafficCapture reg env).stoppedCount = 0 ∧
    (stopTrafficCapture reg env).result.content =
      [{ type := "text", text := noActiveText }] := by
  simp [stopTrafficCapture, h]

/-- Witness for C2 at the empty registry. -/
theorem stop_empty_success_witness :
    (stopTrafficCapture [] exStopEnvAllOk).result.isError = false ∧
    (stopTrafficCapture [] exStopEnvAllOk).termAttempts = [] ∧
    (stopTrafficCapture [] exStopEnvAllOk).stoppedCount = 0 ∧
    (stopTrafficCapture [] exStopEnvAllOk).result.content =
      [{ type := "text", text := noActiveText }] :=
  stop_empty_success [] exStopEnvAllOk rfl

/-! ## Claim C4 -/

/-- C4: when handle creation for an async start fails (stdout pipe,
stderr pipe, or `cmd.Start()`), the handler returns an error-flagged
result immediately, the call is never inserted into the registry (the
registry is returned unchanged), and no background reader task is
launched (main.go lines 280-313, each failure branch returning before
the registration at lines 315-322). -/
theorem start_failure_clean (id : Option RpcId) (reg : List (String × CallRec))
    (env : StartEnv) (h : env.spawn ≠ SpawnOutcome.started) :
    (startTrafficCapture id reg env).result.isError = true ∧
    (startTrafficCapture id reg env).registry = reg ∧
    (startTrafficCapture id reg env).registered = false ∧
    (startTrafficCapture id reg env).bgLaunched = false := by
  rcases henv : env.spawn with e | e | e | _
  · simp [startTrafficCapture, henv]
  · simp [startTrafficCapture, henv]
  · simp [startTrafficCapture, henv]
  · exact absurd henv h

/-- Witness for C4 at a start whose `cmd.Start()` fails. -/
theorem start_failure_clean_witness :
    (startTrafficCapture (some (.num 2)) [] exEnvStartErr).result.isError = true ∧
    (startTrafficCapture (some (.num 2)) [] exEnvStartErr).registry = [] ∧
    (startTrafficCapture (some (.num 2)) [] exEnvStartErr).registered = false ∧
    (startTrafficCapture (some (.num 2)) [] exEnvStartErr).bgLaunched = false :=
  start_failure_clean (some (.num 2)) [] exEnvStartErr (by decide)

/-! ## Claim C3 -/

/-- C3 (counterexample): the claim states that firing an active call's
cancellation token never terminates the underlying OS process. The
command is created with `exec.CommandContext` (main.go line 275), whose
contract kills a started, not-yet-completed process when its context is
cancelled; at the concrete running process `pRun`, firing the token
changes the process phase and marks it killed, refuting the claim. -/
theorem fireCancel_kills_running :
    (fireCancel pRun).phase ≠ pRun.phase ∧ (fireCancel pRun).killed = true := by
  decide

/-- C3 (amended): firing the per-call token releases the waiting start
handler (the select takes its cancellation branch whenever the token
fires within the deadline and before any delivery), and — because the
command is created with `exec.CommandContext` (main.go line 275) — it
also kills the process when the process is still running, so the token
is not merely cooperative; on an already-exited process firing it is a
no-op. The termination protocol's graceful SIGTERM leaves the process
running (it exits on its own schedule), and the protocol's forced path
is the explicit kill. -/
theorem cancel_semantics (p : Proc) (dt : Option Nat) (tc : Nat) (m : String)
    (h1 : tc ≤ deadlineMs) (h2 : ∀ td, dt = some td → tc < td) :
    selectOutcome dt (some tc) m = StartOutcome.cancelled ∧
    (p.phase = ProcPhase.running →
      fireCancel p = { phase := .exited, killed := true, sigtermed := p.sigtermed }) ∧
    (p.phase = ProcPhase.exited → fireCancel p = p) ∧
    (p.phase = ProcPhase.running →
      (signalTerm p).phase = ProcPhase.running ∧ (signalTerm p).sigtermed = true) ∧
    (p.phase = ProcPhase.running →
      (forceKill p).phase = ProcPhase.exited ∧ (forceKill p).killed = true) := by
  refine ⟨?_, ?_, ?_, ?_, ?_⟩
  · cases dt with
    | none => simp [selectOutcome, h1]
    | some td =>
      have h3 : ¬td ≤ tc := Nat.not_le.mpr (h2 td rfl)
      simp [selectOutcome, h1, h3]
  · intro hp
    cases p
    simp_all [fireCancel]
  · intro hp
    cases p
    simp_all [fireCancel]
  · intro hp
    cases p
    simp_all [signalTerm]
  · intro hp
    cases p
    simp_all [forceKill]

/-- Witness for C3's amended theorem at a concrete running process and
concrete select times. -/
theorem cancel_semantics_witness :
    selectOutcome (some 9999) (some 100) "x" = StartOutcome.cancelled ∧
    fireCancel pRun = { phase := .exited, killed := true, sigtermed := false } ∧
    (signalTerm pRun).sigtermed = true ∧
    (forceKill pRun).killed = true := by
  have h := cancel_semantics pRun (some 9999) 100 "x" (by decide)
    (fun td hh => by cases hh; decide)
  exact ⟨h.1, h.2.1 rfl, (h.2.2.2.1 rfl).2, (h.2.2.2.2 rfl).2⟩

/-! ## Claim C6 -/

/-- C6: a stop with a non-empty snapshot attempts SIGTERM on every
copied handle — the attempted set is the whole snapshot, independent of
the delivery outcomes, so a delivery failure on one handle does not
prevent the rest from being signaled — and the count reported in the
final success result is exactly the number of handles whose delivery
succeeded (main.go lines 403-414 and 438-444). -/
theorem stop_signals_all (reg : List (String × CallRec)) (env : StopEnv)
    (h : stopSnapshotOf reg ≠ []) :
    (stopTrafficCapture reg env).termAttempts =
      (stopSnapshotOf reg).map (fun p => p.1) ∧
    (stopTrafficCapture reg env).stoppedCount =
      ((stopSnapshotOf reg).filter (fun p => env.termOk p.1)).length ∧
    (∀ env2 : StopEnv, (stopTrafficCapture reg env2).termAttempts =
      (stopTrafficCapture reg env).termAttempts) ∧
    (stopTrafficCapture reg env).result.isError = false ∧
    (stopTrafficCapture reg env).result.content =
      [{ type := "text",
         text := stopSuccessText ((stopTrafficCapture reg env).stoppedCount) }] := by
  have hne : (stopSnapshotOf reg).isEmpty = false := by
    cases hs : stopSnapshotOf reg
    · exact absurd hs h
    · rfl
  refine ⟨?_, ?_, ?_, ?_, ?_⟩ <;> simp [stopTrafficCapture, hne]

/-- Witness for C6 at a registry of two active calls where delivery
succeeds only for the first: both are attempted, the count is 1. -/
theorem stop_signals_all_witness :
    (stopTrafficCapture exStopReg exStopEnv).termAttempts = ["1", "2"] ∧
    (stopTrafficCapture exStopReg exStopEnv).stoppedCount = 1 ∧
    (stopTrafficCapture exStopReg exStopEnv).result.isError = false := by
  have h := stop_signals_all exStopReg exStopEnv (by decide)
  refine ⟨?_, ?_, h.2.2.2.1⟩
  · rw [h.1]
    rfl
  · rw [h.2.1]
    rfl

/-! ## Claim C10 -/

/-- C10: under the Go-map semantics of the registry, a second async
start with the same invocation identifier overwrites the registry entry
(the only value reachable under the key is the second call), and the
first call's completion watcher deletes by key (main.go line 330),
removing whatever call the entry then holds — so when the first process
exits, the second, still-running call disappears from the registry. The
final conjunct exhibits this on a concrete valid trace: call instances 0
and 1 both register under key `1`; after instance 0 exits and its
watcher deletes, the registry is empty although instance 1 never
exited. -/
theorem duplicate_id_overwrite (r : List (String × Nat)) (k : String) (c1 c2 : Nat) :
    lookupA k (insertA (insertA r k c1) k c2) = some c2 ∧
    eraseA (insertA (insertA r k c1) k c2) k = eraseA r k ∧
    lookupA k (eraseA (insertA (insertA r k c1) k c2) k) = none ∧
    (ValidTraceB exDupTrace = true ∧
      regAfter (exDupTrace.take 6) = [("1", 1)] ∧
      regAfter exDupTrace = [] ∧
      Ev.procExit 1 ∉ exDupTrace) := by
  refine ⟨lookupA_insert_self _ _ _, ?_, lookupA_erase_self _ _, by decide⟩
  show eraseA ((k, c2) :: eraseA (insertA r k c1) k) k = eraseA r k
  rw [eraseA_cons, if_pos rfl]
  show eraseA (eraseA ((k, c1) :: eraseA r k) k) k = eraseA r k
  rw [eraseA_cons, if_pos rfl, eraseA_idem, eraseA_idem]

/-! ## Claim C1 -/

theorem hasSub_nil_needle (l : List Char) : hasSub [] l = true := by
  cases l <;> simp [hasSub, leadsWith]

theorem hasSub_append_right (n : List Char) :
    ∀ (x y : List Char), hasSub n x = true → hasSub n (x ++ y) = true := by
  intro x
  induction x with
  | nil =>
    intro y h
    cases n with
    | nil => exact hasSub_nil_needle y
    | cons c cs => simp [hasSub, leadsWith] at h
  | cons c t ih =>
    intro y h
    simp only [hasSub, Bool.or_eq_true] at h
    rcases h with h | h
    · exact hasSub_of_leadsWith _ _ (leadsWith_append n (c :: t) y h)
    · simp only [List.cons_append, hasSub, Bool.or_eq_true]
      exact Or.inr (ih y h)

theorem strContains_of_middle_part (a m b n : String) (h : strContains m n = true) :
    strContains (a ++ m ++ b) n = true := by
  unfold strContains at h ⊢
  rw [dataAppend, dataAppend, List.append_assoc]
  exact hasSub_append_left n.data a.data _ (hasSub_append_right n.data m.data b.data h)

/-- C1 (counterexample): at `exEnvC1` the external command writes the
line `ready` at time 0 — well within the 5-second window — but the
reader goroutine's collection loop (main.go lines 340-343) exits only
when a blocking `Scan()` call returns beyond the line cap or at
end-of-file, neither of which ever happens here, so nothing is delivered
and the handler's timer fires: the start response is the timeout text
and does not contain `ready`, refuting the claim that every line written
within the window is surfaced. -/
theorem start_line_within_window_not_delivered :
    exEnvC1.lineEvents.any (fun e => decide (e.1 ≤ deadlineMs)) = true ∧
    readerMessage exEnvC1 = "ready" ∧
    (startTrafficCapture (some (.num 1)) [] exEnvC1).result =
      { content := [{ type := "text", text := startWrapper "1" timeoutSentinel }],
        isError := false } ∧
    strContains (startWrapper "1" timeoutSentinel) "ready" = false := by
  refine ⟨by decide, by decide, by decide, by decide⟩

/-- C1 (amended, changed only as the counterexample forces): the reader
delivers within the window exactly when its collection loop finishes
within it — when the 21st blocking `Scan()` call returns, that is, when
the command has written a 21st line or closed its output within 5
seconds. When that happens before the deadline and at least one line was
written, the start response embeds exactly the first written line (and
contains it as a substring), error flag unset. When the reader finishes
neither way within the deadline (in particular when the command writes
nothing, or writes up to 20 lines and then idles with its stream open),
the response is the timeout text, which signals the timeout and carries
an unset error flag. -/
theorem start_window_response (id : Option RpcId) (reg : List (String × CallRec))
    (env : StartEnv) (hs : env.spawn = SpawnOutcome.started)
    (hc : env.cancelTime = none) :
    (∀ t, readerDeliveryTime env = some t → t < deadlineMs →
      ∀ e es, env.lineEvents = e :: es →
        (startTrafficCapture id reg env).result.isError = false ∧
        (startTrafficCapture id reg env).result.content =
          [{ type := "text", text := startWrapper (formatRpcId id) e.2 }] ∧
        strContains (startWrapper (formatRpcId id) e.2) e.2 = true) ∧
    ((∀ t, readerDeliveryTime env = some t → deadlineMs < t) →
      (startTrafficCapture id reg env).result.isError = false ∧
      (startTrafficCapture id reg env).result.content =
        [{ type := "text", text := startWrapper (formatRpcId id) timeoutSentinel }] ∧
      strContains (startWrapper (formatRpcId id) timeoutSentinel) "timed out after 5s" = true) := by
  constructor
  · intro t hdt hlt e es hle
    have hle2 : t ≤ deadlineMs := Nat.le_of_lt hlt
    have houtcome : selectOutcome (readerDeliveryTime env) env.cancelTime (readerMessage env) =
        StartOutcome.delivered (readerMessage env) := by
      rw [hdt, hc]
      simp [selectOutcome, hle2]
    have hmsg : readerMessage env = e.2 := by rw [readerMessage, hle]
    rw [hmsg] at houtcome
    have hres : (startTrafficCapture id reg env).result =
        startResponseOf (StartOutcome.delivered e.2) (formatRpcId id) := by
      simp [startTrafficCapture, hs, houtcome, hmsg]
    rw [hres]
    exact ⟨rfl, rfl, strContains_append_middle (wrapPre ++ formatRpcId id ++ wrapMid) e.2 wrapPost⟩
  · intro hdt
    have houtcome : selectOutcome (readerDeliveryTime env) env.cancelTime (readerMessage env) =
        StartOutcome.timedOut := by
      rw [hc]
      cases hdte : readerDeliveryTime env with
      | none => simp [selectOutcome]
      | some t =>
        have h3 : ¬t ≤ deadlineMs := Nat.not_le.mpr (hdt t hdte)
        simp [selectOutcome, h3]
    have hres : (startTrafficCapture id reg env).result =
        startResponseOf StartOutcome.timedOut (formatRpcId id) := by
      simp [startTrafficCapture, hs, houtcome]
    rw [hres]
    refine ⟨rfl, rfl, ?_⟩
    exact strContains_of_middle_part (wrapPre ++ formatRpcId id ++ wrapMid) timeoutSentinel
      wrapPost "timed out after 5s" (by decide)

/-- Witness for C1's amended theorem: a command that writes `ready` and
then closes its output within the window gets that line back; a command
that writes nothing and keeps its stream open gets the timeout text. -/
theorem start_window_response_witness :
    (startTrafficCapture (some (.num 1)) [] exEnvDeliver).result.content =
      [{ type := "text", text := startWrapper (formatRpcId (some (.num 1))) "ready" }] ∧
    (startTrafficCapture (some (.num 1)) [] exEnvSilent).result.content =
      [{ type := "text", text := startWrapper (formatRpcId (some (.num 1))) timeoutSentinel }] := by
  constructor
  · exact ((start_window_response (some (.num 1)) [] exEnvDeliver rfl rfl).1 10 rfl (by decide)
      (0, "ready") [] rfl).2.1
  · exact ((start_window_response (some (.num 1)) [] exEnvSilent rfl rfl).2
      (fun t ht => Option.noConfusion ht)).2.1

/-! ## Claim C7 -/

theorem selectOutcome_cases (dt ct : Option Nat) (m : String) :
    selectOutcome dt ct m = StartOutcome.delivered m ∨
    selectOutcome dt ct m = StartOutcome.timedOut ∨
    selectOutcome dt ct m = StartOutcome.cancelled := by
  cases dt with
  | some td =>
    cases ct with
    | some tc =>
      simp only [selectOutcome]
      split
      · exact Or.inl rfl
      · split
        · exact Or.inr (Or.inr rfl)
        · exact Or.inr (Or.inl rfl)
    | none =>
      simp only [selectOutcome]
      split
      · exact Or.inl rfl
      · exact Or.inr (Or.inl rfl)
  | none =>
    cases ct with
    | some tc =>
      simp only [selectOutcome]
      split
      · exact Or.inr (Or.inr rfl)
      · exact Or.inr (Or.inl rfl)
    | none => exact Or.inr (Or.inl rfl)

/-- C7 (counterexample): the claim says the three select outcomes each
produce a distinct response message. But the delivered and timed-out
branches share the same wrapper text, differing only in the spliced-in
initial output, so a command whose first line is, verbatim, the timeout
sentinel yields a delivered response identical to the timed-out
response of a silent command: two different outcomes, one message. -/
theorem delivered_timeout_same_response :
    selectOutcome (readerDeliveryTime exEnvSentinelLine) exEnvSentinelLine.cancelTime
        (readerMessage exEnvSentinelLine) = StartOutcome.delivered timeoutSentinel ∧
    selectOutcome (readerDeliveryTime exEnvSilent) exEnvSilent.cancelTime
        (readerMessage exEnvSilent) = StartOutcome.timedOut ∧
    (startTrafficCapture (some (.num 1)) [] exEnvSentinelLine).result =
      (startTrafficCapture (some (.num 1)) [] exEnvSilent).result := by
  refine ⟨by decide, by decide, by decide⟩

/-- C7 (amended, changed only as the counterexample forces): the wait
ends by exactly one of the three select outcomes; none of the three
carries an error flag, and a start invocation is wrapped in a success
envelope (no protocol-level error); the three responses are pairwise
distinct provided the delivered first line is not, verbatim, the
timeout sentinel text. -/
theorem select_outcomes_amended (dt ct : Option Nat) (m rid : String)
    (hm : m ≠ timeoutSentinel) :
    (selectOutcome dt ct m = StartOutcome.delivered m ∨
      selectOutcome dt ct m = StartOutcome.timedOut ∨
      selectOutcome dt ct m = StartOutcome.cancelled) ∧
    (∀ o : StartOutcome, (startResponseOf o rid).isError = false) ∧
    startResponseOf (StartOutcome.delivered m) rid ≠ startResponseOf StartOutcome.timedOut rid ∧
    startResponseOf (StartOutcome.delivered m) rid ≠ startResponseOf StartOutcome.cancelled rid ∧
    startResponseOf StartOutcome.timedOut rid ≠ startResponseOf StartOutcome.cancelled rid ∧
    (∀ (w : World) (id : Option RpcId) (p : CallToolParams),
      p.name = "start_traffic_capture" → ((handleToolCall w id p).1).err = none) := by
  refine ⟨selectOutcome_cases dt ct m, ?_, ?_, ?_, ?_, ?_⟩
  · intro o
    cases o <;> rfl
  · intro hEq
    have hTxt : startWrapper rid m = startWrapper rid timeoutSentinel := by
      simpa [startResponseOf] using hEq
    exact hm (startWrapper_inj rid m timeoutSentinel hTxt)
  · intro hEq
    have hTxt : startWrapper rid m = cancelledText := by
      simpa [startResponseOf] using hEq
    exact startWrapper_ne_cancelledText rid m hTxt
  · intro hEq
    have hTxt : startWrapper rid timeoutSentinel = cancelledText := by
      simpa [startResponseOf] using hEq
    exact startWrapper_ne_cancelledText rid timeoutSentinel hTxt
  · intro w id p hp
    rcases p with ⟨nm, od, cf⟩
    simp only at hp
    subst hp
    simp [handleToolCall, resultResponse]

/-- Witness for C7's amended theorem at a delivered line `ready`. -/
theorem select_outcomes_amended_witness :
    startResponseOf (StartOutcome.delivered "ready") "1" ≠
      startResponseOf StartOutcome.timedOut "1" ∧
    startResponseOf StartOutcome.timedOut "1" ≠ startResponseOf StartOutcome.cancelled "1" ∧
    (startResponseOf StartOutcome.cancelled "1").isError = false := by
  have h := select_outcomes_amended (some 0) none "ready" "1" (by decide)
  exact ⟨h.2.2.1, h.2.2.2.2.1, h.2.1 StartOutcome.cancelled⟩

/-! ## Claim C8 -/

theorem handleToolCall_shape (w : World) (id : Option RpcId) (p : CallToolParams) :
    ((handleToolCall w id p).1).id = id ∧
    ((((handleToolCall w id p).1).result.isSome ∧ ((handleToolCall w id p).1).err = none) ∨
      (((handleToolCall w id p).1).result = none ∧ ((handleToolCall w id p).1).err.isSome)) := by
  rcases p with ⟨nm, od, cf⟩
  unfold handleToolCall
  split <;> simp [resultResponse, errorResponse]

theorem handleRequest_shape (w : World) (req : JSONRPCRequest) :
    ((handleRequest w req).1).id = req.id ∧
    ((((handleRequest w req).1).result.isSome ∧ ((handleRequest w req).1).err = none) ∨
      (((handleRequest w req).1).result = none ∧ ((handleRequest w req).1).err.isSome)) := by
  unfold handleRequest
  split
  · cases req.params.asInit <;> simp [resultResponse, errorResponse]
  · simp [resultResponse]
  · cases hac : req.params.asCall with
    | none => simp [errorResponse]
    | some p => exact handleToolCall_shape w req.id p
  · simp [errorResponse]

/-- C8: per consumed non-blank input line exactly one response is
emitted. A line that fails to parse yields the parse-error response,
which carries no identifier (main.go lines 473-477); a parsed request
naming a method outside the dispatch table yields the method-not-found
error tagged with the caller's identifier (main.go line 136); every
parsed request yields one response tagged with the caller's identifier
that carries either a result or an error, never both; a blank line is
skipped without a response (main.go lines 468-470). -/
theorem dispatch_responses (w : World) :
    (processLine w InputLine.blank).1 = none ∧
    (processLine w InputLine.malformed).1 =
      some (errorResponse none (-32700) "Parse error") ∧
    (errorResponse none (-32700) "Parse error").id = none ∧
    (∀ req : JSONRPCRequest,
      req.method ≠ "initialize" → req.method ≠ "tools/list" → req.method ≠ "tools/call" →
      (processLine w (.parsed req)).1 =
        some (errorResponse req.id (-32601) "Method not found")) ∧
    (∀ req : JSONRPCRequest, ∃ resp : JSONRPCResponse,
      (processLine w (.parsed req)).1 = some resp ∧ resp.id = req.id ∧
      ((resp.result.isSome ∧ resp.err = none) ∨ (resp.result = none ∧ resp.err.isSome))) := by
  refine ⟨rfl, rfl, rfl, ?_, ?_⟩
  · intro req h1 h2 h3
    simp only [processLine]
    unfold handleRequest
    split
    · exact absurd (by assumption) h1
    · exact absurd (by assumption) h2
    · exact absurd (by assumption) h3
    · rfl
  · intro req
    exact ⟨(handleRequest w req).1, rfl, (handleRequest_shape w req).1,
      (handleRequest_shape w req).2⟩

/-- Witness for C8 at a malformed line, an unknown method, and a
well-formed request. -/
theorem dispatch_responses_witness :
    (processLine exWorld InputLine.malformed).1 =
      some (errorResponse none (-32700) "Parse error") ∧
    (processLine exWorld (InputLine.parsed exReqUnknown)).1 =
      some (errorResponse (some (RpcId.num 7)) (-32601) "Method not found") ∧
    (processLine exWorld (InputLine.parsed exReqList)).1 =
      some (resultResponse (some (RpcId.num 3)) RpcResult.toolsListRes) := by
  have h := dispatch_responses exWorld
  exact ⟨h.2.1, h.2.2.2.1 exReqUnknown (by decide) (by decide) (by decide), rfl⟩

/-! ## Claim C5 -/

/-- C5: in every valid trace of the supervision layer, the handler's
registration of a call precedes its wait (a `beginWait` in any prefix
forces the corresponding `register` into that prefix, per the program
order of main.go lines 316-322 before line 356), and consequently a stop
snapshot taken after the handler began waiting finds the call — provided
the call is still active (its completion watcher has not yet deleted the
key, `noDeleteOf`) and its caller-supplied identifier is not shared with
another registration (`regOnly`, the registry's keys-unique reading of
the data model). -/
theorem registration_before_wait (tr pre post : List Ev) (snap : List (String × Nat))
    (k : String) (c : Nat)
    (hv : ValidTraceB tr = true)
    (hsplit : tr = pre ++ Ev.stopSnapshotEv snap :: post)
    (hbw : Ev.beginWait k c ∈ pre)
    (hnodel : noDeleteOf k pre = true)
    (hkuniq : regOnly k c pre = true) :
    Ev.register k c ∈ pre ∧ lookupA k (regAfter pre) = some c ∧ (k, c) ∈ snap := by
  have hvf : validFrom [] tr = true := by
    have h0 := hv
    unfold ValidTraceB at h0
    rw [Bool.and_eq_true] at h0
    exact h0.1
  have hsnap : checkEv pre (Ev.stopSnapshotEv snap) = true := by
    have h2 := hvf
    rw [hsplit] at h2
    simpa using validFrom_split pre [] (Ev.stopSnapshotEv snap) post h2
  have hsnapEq : snap = regAfter pre := by
    simp only [checkEv, Bool.and_eq_true] at hsnap
    exact of_decide_eq_true hsnap.1
  have hreg : Ev.register k c ∈ pre := by
    rcases List.append_of_mem hbw with ⟨a, b, hab⟩
    have h2 := hvf
    rw [hsplit, hab, List.append_assoc, List.cons_append] at h2
    have hck := validFrom_split a [] (Ev.beginWait k c)
      (b ++ Ev.stopSnapshotEv snap :: post) (by simpa using h2)
    have hmem : Ev.register k c ∈ a :=
      (hasEv_iff a (Ev.register k c)).mp (by simpa [checkEv] using hck)
    rw [hab]
    exact List.mem_append.mpr (Or.inl hmem)
  have hlw := lastWrite_of_regOnly k c pre hreg hnodel hkuniq
  have hlook : lookupA k (regAfter pre) = some c := by
    rw [lookupA_regAfter, hlw]
  refine ⟨hreg, hlook, ?_⟩
  rw [hsnapEq]
  exact mem_of_lookupA _ _ _ hlook

/-- Witness for C5 at a concrete trace: register, begin waiting, then a
stop snapshot; the snapshot contains the call. -/
theorem registration_before_wait_witness :
    Ev.register "9" 5 ∈ [Ev.register "9" 5, Ev.beginWait "9" 5] ∧
    lookupA "9" (regAfter [Ev.register "9" 5, Ev.beginWait "9" 5]) = some 5 ∧
    ("9", 5) ∈ [("9", 5)] :=
  registration_before_wait exC5Trace [Ev.register "9" 5, Ev.beginWait "9" 5] []
    [("9", 5)] "9" 5 (by decide) (by decide) (by decide) (by decide) (by decide)

/-! ## Claim C9 -/

/-- C9 (counterexample): `exStopTrace` is a valid execution in which the
stop operation completed on the graceful path (the snapshotted process
exited before `stopReturn`), yet at the instant the stop returns the
registry still holds the call: the completion watcher that performs the
deletion of main.go line 330 is a separate goroutine with no
synchronization against the stop handler's return, and here it has not
run yet. The registry is thus not empty when the stop completes,
refuting the claim. -/
theorem stop_return_registry_nonempty :
    ValidTraceB exStopTrace = true ∧
    exStopTrace.getLast? = some Ev.stopReturn ∧
    regAfter exStopTrace = [("1", 0)] := by
  refine ⟨by decide, by decide, by decide⟩

/-- C9 (amended, changed only as the counterexample forces): the registry
is empty not at the instant the stop returns but once every registered
call's completion watcher has performed its removal (and no
re-registration followed): in any valid trace whose last registry write
on every registered key is a watcher deletion, the registry is empty and
no call remains referenced from it. -/
theorem registry_empty_after_deletes (tr : List Ev)
    (_hv : ValidTraceB tr = true) (hdel : allRegisteredDeleted tr = true) :
    regAfter tr = [] := by
  cases hra : regAfter tr with
  | nil => rfl
  | cons p rest =>
    exfalso
    have hlook : lookupA p.1 (regAfter tr) = some p.2 := by
      rw [hra]
      cases p
      simp [lookupA]
    rw [lookupA_regAfter] at hlook
    cases hlw : lastWrite p.1 tr with
    | none =>
      rw [hlw] at hlook
      simp at hlook
    | some e =>
      cases e with
      | register k2 c2 =>
        have hmem := (lastWrite_mem p.1 tr _ hlw).2
        have hkw := (lastWrite_mem p.1 tr _ hlw).1
        have hk2 : k2 = p.1 := by simpa [kWrite] using hkw
        have hall : lastWriteNotReg k2 tr = true := List.all_eq_true.mp hdel _ hmem
        rw [lastWriteNotReg, hk2, hlw] at hall
        simp at hall
      | beginWait k2 c2 =>
        rw [hlw] at hlook
        simp at hlook
      | startReturn k2 c2 =>
        rw [hlw] at hlook
        simp at hlook
      | procExit c2 =>
        rw [hlw] at hlook
        simp at hlook
      | wDelete k2 c2 =>
        rw [hlw] at hlook
        simp at hlook
      | stopSnapshotEv s =>
        rw [hlw] at hlook
        simp at hlook
      | sigterm c2 =>
        rw [hlw] at hlook
        simp at hlook
      | stopForcedKill =>
        rw [hlw] at hlook
        simp at hlook
      | stopReturn =>
        rw [hlw] at hlook
        simp at hlook

/-- Witness for C9's amended theorem: the counterexample trace continued
with the watcher's deletion leaves the registry empty. -/
theorem registry_empty_after_deletes_witness :
    regAfter exStopTraceDone = [] :=
  registry_empty_after_deletes exStopTraceDone (by decide) (by decide)

end Mcp
